import Mathlib

/-!
Verification of the resize/rotate geometry core (`src/main.py`).

The source is a pure, stateless geometry library: an immutable `Point` and
`Rectangle`, a closed eight-variant `Handle` enum (an `IntEnum` with values
0–7), a rotation primitive `rotate`, an anchor re-adjuster `adjust_points`,
a handle-to-anchor resolver `get_adjusted_point`, and an anchor-to-rectangle
reconstructor `to_rect`.

Coordinates and angles are Python floats; we embed them as real numbers
(the spec states its algebraic properties over exact arithmetic, with
floating-point tolerance as the reading for the concrete implementation).
Angles are degrees at the boundary; `math.radians` is `· * π / 180`.

`Handle` is embedded twice, both views faithful to the `IntEnum` source:
as a closed inductive type (the eight members, used by the total
functions), and as a raw integer code (`decodeHandle`), which captures how
Python's `match` statement selects a case: the scrutinee is compared for
equality against each member's integer value in order, and when no case
matches the `match` statement does nothing, so the function falls off its
end and returns Python `None`.  Neither `get_adjusted_point` nor `to_rect`
contains a `raise`, so the raw-code versions model the exception channel
explicitly (as `Except`) and always return `Except.ok`.
-/

/-- Immutable 2D point with real coordinates (`Point` in `src/main.py`). -/
@[ext]
structure Point where
  x : ℝ
  y : ℝ

/-- Component access by integer index, `Point.__getitem__`: index 0 gives
`x`, index 1 gives `y`, any other integer raises an `IndexError` whose
message reports the index as out of range.  We model a raised exception as
`Except.error` carrying the message. -/
def Point.getItem (p : Point) (index : ℤ) : Except String ℝ :=
  if index = 0 then Except.ok p.x
  else if index = 1 then Except.ok p.y
  else Except.error ("Point index " ++ toString index ++ " out of range (0-1)")

/-- Immutable rectangle (`Rectangle` in `src/main.py`): `x`, `y` position
and `width`, `height`, all reals.  Width and height are not constrained to
be non-negative. -/
@[ext]
structure Rectangle where
  x : ℝ
  y : ℝ
  width : ℝ
  height : ℝ

/-- Center of the rectangle as a `Point` (`Rectangle.pcenter`). -/
noncomputable def Rectangle.pcenter (r : Rectangle) : Point :=
  ⟨r.x + r.width / 2, r.y + r.height / 2⟩

/-- The eight resize handles (`Handle` in `src/main.py`, an `IntEnum`). -/
inductive Handle where
  | TOP_RIGHT
  | MIDDLE_RIGHT
  | BOTTOM_RIGHT
  | TOP_LEFT
  | MIDDLE_LEFT
  | BOTTOM_LEFT
  | TOP_MIDDLE
  | BOTTOM_MIDDLE
  deriving Repr, DecidableEq

/-- Integer value of each `Handle` member, exactly as declared in the
`IntEnum` (`TOP_RIGHT = 0`, ..., `BOTTOM_MIDDLE = 7`). -/
def Handle.val : Handle → ℤ
  | .TOP_RIGHT => 0
  | .MIDDLE_RIGHT => 1
  | .BOTTOM_RIGHT => 2
  | .TOP_LEFT => 3
  | .MIDDLE_LEFT => 4
  | .BOTTOM_LEFT => 5
  | .TOP_MIDDLE => 6
  | .BOTTOM_MIDDLE => 7

/-- Rotate `point` about `origin` by `angle` degrees (`rotate` in
`src/main.py`): the angle is converted to radians and the standard 2D
rotation matrix is applied relative to the origin. -/
noncomputable def rotate (point origin : Point) (angle : ℝ) : Point :=
  let a : ℝ := angle * Real.pi / 180
  ⟨(point.x - origin.x) * Real.cos a - (point.y - origin.y) * Real.sin a + origin.x,
   (point.x - origin.x) * Real.sin a + (point.y - origin.y) * Real.cos a + origin.y⟩

/-- Re-derive two diagonal corner positions around a shifted center
(`adjust_points` in `src/main.py`): rotate `corner_a` about `center` by
`angle`, take the midpoint of the result and `corner_c` as the new center,
and rotate both points by `-angle` about that new center. -/
noncomputable def adjust_points (corner_a corner_c center : Point) (angle : ℝ) :
    Point × Point :=
  let rotated_a : Point := rotate corner_a center angle
  let new_center : Point :=
    ⟨(rotated_a.x + corner_c.x) / 2, (rotated_a.y + corner_c.y) / 2⟩
  (rotate rotated_a new_center (-angle), rotate corner_c new_center (-angle))

/-- Handle-to-anchor resolver (`get_adjusted_point` in `src/main.py`):
computes `normal_c`, the target expressed in the rectangle's unrotated
local frame, then branches on the handle to produce the (fixed, moving)
anchor pair.  This is the closed-enum view; see
`get_adjusted_point_code` for the raw integer-handle entry point. -/
noncomputable def get_adjusted_point (rectangle : Rectangle) (target : Point)
    (angle : ℝ) (handle : Handle) : Point × Point :=
  let normal_c : Point := rotate target rectangle.pcenter (-angle)
  match handle with
  | .TOP_RIGHT =>
      (⟨rectangle.x, rectangle.y⟩, target)
  | .MIDDLE_RIGHT =>
      let interpolated_d : Point := ⟨normal_c.x, rectangle.y + rectangle.height⟩
      (⟨rectangle.x, rectangle.y⟩, rotate interpolated_d rectangle.pcenter angle)
  | .BOTTOM_RIGHT =>
      (⟨rectangle.x, rectangle.y + rectangle.height⟩, target)
  | .TOP_LEFT =>
      (⟨rectangle.x + rectangle.width, rectangle.y⟩, target)
  | .MIDDLE_LEFT =>
      let interpolated_d : Point := ⟨normal_c.x, rectangle.y + rectangle.height⟩
      (⟨rectangle.x + rectangle.width, rectangle.y⟩,
       rotate interpolated_d rectangle.pcenter angle)
  | .BOTTOM_LEFT =>
      (⟨rectangle.x + rectangle.width, rectangle.y + rectangle.height⟩, target)
  | .TOP_MIDDLE =>
      let interpolated_d : Point := ⟨rectangle.x + rectangle.width, normal_c.y⟩
      (⟨rectangle.x, rectangle.y⟩, rotate interpolated_d rectangle.pcenter angle)
  | .BOTTOM_MIDDLE =>
      let interpolated_d : Point := ⟨rectangle.x + rectangle.width, normal_c.y⟩
      (⟨rectangle.x, rectangle.y + rectangle.height⟩,
       rotate interpolated_d rectangle.pcenter angle)

/-- Anchor-to-rectangle reconstructor (`to_rect` in `src/main.py`): given
fixed corner `a`, moving corner `c` and the handle, rebuild the rectangle.
Width and height are plain differences and may come out negative. -/
def to_rect (a c : Point) (handle : Handle) : Rectangle :=
  match handle with
  | .TOP_RIGHT | .MIDDLE_RIGHT | .TOP_MIDDLE =>
      ⟨a.x, a.y, c.x - a.x, c.y - a.y⟩
  | .BOTTOM_RIGHT =>
      let height : ℝ := a.y - c.y
      ⟨a.x, a.y - height, c.x - a.x, height⟩
  | .TOP_LEFT | .MIDDLE_LEFT =>
      let height : ℝ := c.y - a.y
      ⟨c.x, c.y - height, a.x - c.x, height⟩
  | .BOTTOM_LEFT =>
      ⟨c.x, c.y, a.x - c.x, a.y - c.y⟩
  | .BOTTOM_MIDDLE =>
      ⟨a.x, c.y, c.x - a.x, a.y - c.y⟩

/-- Case selection of Python's `match` over the `IntEnum`: the scrutinee
(any integer) is compared against each member's value in declaration
order; `none` when no case matches. -/
def decodeHandle (code : ℤ) : Option Handle :=
  if code = 0 then some .TOP_RIGHT
  else if code = 1 then some .MIDDLE_RIGHT
  else if code = 2 then some .BOTTOM_RIGHT
  else if code = 3 then some .TOP_LEFT
  else if code = 4 then some .MIDDLE_LEFT
  else if code = 5 then some .BOTTOM_LEFT
  else if code = 6 then some .TOP_MIDDLE
  else if code = 7 then some .BOTTOM_MIDDLE
  else none

/-- Raw entry point of `get_adjusted_point` on an arbitrary integer handle
code: the matched case (if any) runs the corresponding branch; when no
case matches, the `match` statement does nothing and the Python function
returns `None` (`Except.ok none`).  The function body contains no `raise`,
so no `Except.error` is ever produced. -/
noncomputable def get_adjusted_point_code (rectangle : Rectangle) (target : Point)
    (angle : ℝ) (code : ℤ) : Except String (Option (Point × Point)) :=
  Except.ok ((decodeHandle code).map (get_adjusted_point rectangle target angle))

/-- Raw entry point of `to_rect` on an arbitrary integer handle code:
same fall-through behaviour as `get_adjusted_point_code`; no `raise`
occurs, so the result is always `Except.ok`. -/
def to_rect_code (a c : Point) (code : ℤ) : Except String (Option Rectangle) :=
  Except.ok ((decodeHandle code).map (to_rect a c))

/-- Squared Euclidean distance between two points. -/
def dist2 (p q : Point) : ℝ :=
  (p.x - q.x) ^ 2 + (p.y - q.y) ^ 2

/-- Euclidean distance between two points. -/
noncomputable def pdist (p q : Point) : ℝ :=
  Real.sqrt (dist2 p q)

/-- C1: for `Rectangle(0,0,2,2)`, target `Point(3,3)`, angle 45 and handle
`BOTTOM_RIGHT`, `get_adjusted_point` returns fixed `Point(0,2)` and moving
`Point(3,3)`, and `to_rect` on that pair with `BOTTOM_RIGHT` returns
`Rectangle(0, 3, 3, -1)` — the negative height is an ordinary return
value. -/
theorem c1_bottom_right_example :
    get_adjusted_point ⟨0, 0, 2, 2⟩ ⟨3, 3⟩ 45 .BOTTOM_RIGHT =
      (⟨0, 2⟩, ⟨3, 3⟩) ∧
    to_rect ⟨0, 2⟩ ⟨3, 3⟩ .BOTTOM_RIGHT = ⟨0, 3, 3, -1⟩ := by
  constructor
  · simp [get_adjusted_point]
  · simp only [to_rect]
    ext <;> norm_num

/-- C8: `Point` component access by integer index returns `x` at index 0
and `y` at index 1, and for every other integer index raises an
out-of-range `IndexError`. -/
theorem c8_getitem_bounds (p : Point) (i : ℤ) :
    p.getItem 0 = Except.ok p.x ∧
    p.getItem 1 = Except.ok p.y ∧
    (i ≠ 0 → i ≠ 1 →
      p.getItem i =
        Except.error ("Point index " ++ toString i ++ " out of range (0-1)")) := by
  refine ⟨rfl, rfl, fun h0 h1 => ?_⟩
  simp [Point.getItem, h0, h1]

/-- C8 witness: the three cases of `c8_getitem_bounds` at the concrete
point `(5, 7)` and index 2. -/
theorem c8_getitem_bounds_witness :
    Point.getItem ⟨5, 7⟩ 0 = Except.ok 5 ∧
    Point.getItem ⟨5, 7⟩ 1 = Except.ok 7 ∧
    Point.getItem ⟨5, 7⟩ 2 =
      Except.error ("Point index " ++ toString (2 : ℤ) ++ " out of range (0-1)") :=
  ⟨(c8_getitem_bounds ⟨5, 7⟩ 2).1,
   (c8_getitem_bounds ⟨5, 7⟩ 2).2.1,
   (c8_getitem_bounds ⟨5, 7⟩ 2).2.2 (by decide) (by decide)⟩

/-- C5: identity drag — for every rectangle `R`, with angle 0 and handle
`TOP_RIGHT`, dragging to the corner `(R.x + R.width, R.y + R.height)` and
reconstructing with `to_rect` yields `R` unchanged. -/
theorem c5_identity_drag (R : Rectangle) :
    (let p := get_adjusted_point R ⟨R.x + R.width, R.y + R.height⟩ 0 .TOP_RIGHT
     to_rect p.1 p.2 .TOP_RIGHT) = R := by
  simp only [get_adjusted_point, to_rect]
  ext <;> ring

/-- C2 counterexample: the claim predicts that for `TOP_RIGHT` the fixed
point is `(R.x, R.y + R.height)`; on `Rectangle(0,0,2,2)` with target
`(5,5)` and angle 0 that would be `(0, 2)`, but the code returns `(0, 0)`
as the fixed point. -/
theorem c2_corner_fixed_counterexample :
    get_adjusted_point ⟨0, 0, 2, 2⟩ ⟨5, 5⟩ 0 .TOP_RIGHT ≠
      ((⟨0, 2⟩ : Point), (⟨5, 5⟩ : Point)) := by
  intro h
  have hy := congrArg (fun q : Point × Point => q.1.y) h
  simp [get_adjusted_point] at hy

/-- C2 amended: for every rectangle, target and angle, each corner handle
returns the target unchanged as the moving point, and as the fixed point
the corner listed in the source: `TOP_RIGHT ↦ (x, y)`,
`BOTTOM_RIGHT ↦ (x, y + h)`, `TOP_LEFT ↦ (x + w, y)`,
`BOTTOM_LEFT ↦ (x + w, y + h)` — the diagonally opposite corner when the
`y` axis points upward, not under the spec's top-left/`y`-down reading. -/
theorem c2_corner_handles (R : Rectangle) (t : Point) (θ : ℝ) :
    get_adjusted_point R t θ .TOP_RIGHT = ((⟨R.x, R.y⟩ : Point), t) ∧
    get_adjusted_point R t θ .BOTTOM_RIGHT = ((⟨R.x, R.y + R.height⟩ : Point), t) ∧
    get_adjusted_point R t θ .TOP_LEFT = ((⟨R.x + R.width, R.y⟩ : Point), t) ∧
    get_adjusted_point R t θ .BOTTOM_LEFT =
      ((⟨R.x + R.width, R.y + R.height⟩ : Point), t) :=
  ⟨rfl, rfl, rfl, rfl⟩

/-- Two-element set congruence, matching order. -/
theorem pair_set_congr {p q r s : ℝ} (h1 : p = r) (h2 : q = s) :
    ({p, q} : Set ℝ) = {r, s} := by
  rw [h1, h2]

/-- Two-element set congruence, swapped order. -/
theorem pair_set_congr_swap {p q r s : ℝ} (h1 : p = s) (h2 : q = r) :
    ({p, q} : Set ℝ) = {r, s} := by
  rw [h1, h2]
  exact Set.pair_comm s r

/-- C9: span invariant of `to_rect` — for every handle and all fixed and
moving points `a`, `c`, the result's horizontal extent
`{x, x + width}` equals `{a.x, c.x}` and its vertical extent
`{y, y + height}` equals `{a.y, c.y}` as unordered pairs. -/
theorem c9_to_rect_span (h : Handle) (a c : Point) :
    ({(to_rect a c h).x, (to_rect a c h).x + (to_rect a c h).width} : Set ℝ) =
      {a.x, c.x} ∧
    ({(to_rect a c h).y, (to_rect a c h).y + (to_rect a c h).height} : Set ℝ) =
      {a.y, c.y} := by
  cases h <;> simp only [to_rect]
  case TOP_RIGHT =>
    exact ⟨pair_set_congr (by ring) (by ring), pair_set_congr (by ring) (by ring)⟩
  case MIDDLE_RIGHT =>
    exact ⟨pair_set_congr (by ring) (by ring), pair_set_congr (by ring) (by ring)⟩
  case TOP_MIDDLE =>
    exact ⟨pair_set_congr (by ring) (by ring), pair_set_congr (by ring) (by ring)⟩
  case BOTTOM_RIGHT =>
    exact ⟨pair_set_congr (by ring) (by ring),
           pair_set_congr_swap (by ring) (by ring)⟩
  case TOP_LEFT =>
    exact ⟨pair_set_congr_swap (by ring) (by ring),
           pair_set_congr (by ring) (by ring)⟩
  case MIDDLE_LEFT =>
    exact ⟨pair_set_congr_swap (by ring) (by ring),
           pair_set_congr (by ring) (by ring)⟩
  case BOTTOM_LEFT =>
    exact ⟨pair_set_congr_swap (by ring) (by ring),
           pair_set_congr_swap (by ring) (by ring)⟩
  case BOTTOM_MIDDLE =>
    exact ⟨pair_set_congr (by ring) (by ring),
           pair_set_congr_swap (by ring) (by ring)⟩

/-- C10: `adjust_points` preserves the midpoint — the pair it returns has
the same midpoint as the internally computed new center, namely the
midpoint of `rotate(corner_a, center, angle)` and `corner_c`. -/
theorem c10_adjust_points_midpoint (A C center : Point) (θ : ℝ) :
    ((adjust_points A C center θ).1.x + (adjust_points A C center θ).2.x) / 2 =
      ((rotate A center θ).x + C.x) / 2 ∧
    ((adjust_points A C center θ).1.y + (adjust_points A C center θ).2.y) / 2 =
      ((rotate A center θ).y + C.y) / 2 := by
  constructor <;> · simp only [adjust_points, rotate]; ring

/-- C6: rotation inverse — rotating by `θ` degrees about an origin and
then by `-θ` about the same origin returns every point unchanged, over
exact real arithmetic. -/
theorem c6_rotate_inverse (p o : Point) (θ : ℝ) :
    rotate (rotate p o θ) o (-θ) = p := by
  have harg : -θ * Real.pi / 180 = -(θ * Real.pi / 180) := by ring
  have hpy : Real.sin (θ * Real.pi / 180) ^ 2 + Real.cos (θ * Real.pi / 180) ^ 2 = 1 :=
    Real.sin_sq_add_cos_sq _
  ext
  · simp only [rotate, harg, Real.cos_neg, Real.sin_neg]
    linear_combination (p.x - o.x) * hpy
  · simp only [rotate, harg, Real.cos_neg, Real.sin_neg]
    linear_combination (p.y - o.y) * hpy

/-- C7: rotation is an isometry about its origin — the Euclidean distance
from a point to the rotation origin is unchanged by `rotate`. -/
theorem c7_rotate_isometry (p o : Point) (θ : ℝ) :
    pdist (rotate p o θ) o = pdist p o := by
  have h : dist2 (rotate p o θ) o = dist2 p o := by
    simp only [dist2, rotate]
    linear_combination
      ((p.x - o.x) ^ 2 + (p.y - o.y) ^ 2) *
        Real.sin_sq_add_cos_sq (θ * Real.pi / 180)
  rw [pdist, pdist, h]

/-- Rotation by 0 degrees is the identity. -/
theorem rotate_zero (p o : Point) : rotate p o 0 = p := by
  ext <;> simp [rotate]

/-- C3 counterexample: for `Rectangle(0,0,2,2)`, target `(3,3)`, angle 90
and handle `MIDDLE_RIGHT`, the reconstructed rectangle has height 3, not
the original height 2 — composing resolver and reconstructor does not
preserve the untouched dimension at every angle. -/
theorem c3_mid_handle_counterexample :
    (to_rect (get_adjusted_point ⟨0, 0, 2, 2⟩ ⟨3, 3⟩ 90 .MIDDLE_RIGHT).1
             (get_adjusted_point ⟨0, 0, 2, 2⟩ ⟨3, 3⟩ 90 .MIDDLE_RIGHT).2
             .MIDDLE_RIGHT).height ≠ (2 : ℝ) := by
  have h90 : (90 : ℝ) * Real.pi / 180 = Real.pi / 2 := by ring
  have hn90 : -(90 : ℝ) * Real.pi / 180 = -(Real.pi / 2) := by ring
  simp only [get_adjusted_point, to_rect, rotate, h90, hn90, Real.cos_neg,
    Real.sin_neg, Real.cos_pi_div_two, Real.sin_pi_div_two]
  norm_num

/-- C3 amended: at angle 0 (the unrotated case), composing
`get_adjusted_point` and `to_rect` for an edge-midpoint handle leaves the
untouched dimension equal to the original: height for `MIDDLE_RIGHT` and
`MIDDLE_LEFT`, width for `TOP_MIDDLE` and `BOTTOM_MIDDLE`.  At other
angles the dimension can change (see the counterexample at 90 degrees). -/
theorem c3_mid_handles_angle_zero (R : Rectangle) (t : Point) :
    (to_rect (get_adjusted_point R t 0 .MIDDLE_RIGHT).1
             (get_adjusted_point R t 0 .MIDDLE_RIGHT).2
             .MIDDLE_RIGHT).height = R.height ∧
    (to_rect (get_adjusted_point R t 0 .MIDDLE_LEFT).1
             (get_adjusted_point R t 0 .MIDDLE_LEFT).2
             .MIDDLE_LEFT).height = R.height ∧
    (to_rect (get_adjusted_point R t 0 .TOP_MIDDLE).1
             (get_adjusted_point R t 0 .TOP_MIDDLE).2
             .TOP_MIDDLE).width = R.width ∧
    (to_rect (get_adjusted_point R t 0 .BOTTOM_MIDDLE).1
             (get_adjusted_point R t 0 .BOTTOM_MIDDLE).2
             .BOTTOM_MIDDLE).width = R.width := by
  refine ⟨?_, ?_, ?_, ?_⟩ <;>
    · simp only [get_adjusted_point, to_rect, neg_zero, rotate_zero]
      ring

/-- C4 counterexample: at the handle code 8, which is none of the eight
enum values, both entry points return `Except.ok none` — Python's `match`
falls through and the functions return `None`; no invalid-argument error
is raised. -/
theorem c4_unmatched_counterexample :
    get_adjusted_point_code ⟨0, 0, 2, 2⟩ ⟨3, 3⟩ 0 8 = Except.ok none ∧
    to_rect_code ⟨0, 0⟩ ⟨1, 1⟩ 8 = Except.ok none := by
  constructor <;> rfl

/-- C4 amended: for every integer handle code outside the eight enum
values 0–7, `get_adjusted_point` and `to_rect` raise no error: the match
statement falls through and both functions return `None`
(`Except.ok none`), for all other arguments. -/
theorem c4_unmatched_handle (code : ℤ) (hcode : code < 0 ∨ 7 < code)
    (R : Rectangle) (t : Point) (θ : ℝ) (a c : Point) :
    get_adjusted_point_code R t θ code = Except.ok none ∧
    to_rect_code a c code = Except.ok none := by
  have hd : decodeHandle code = none := by
    unfold decodeHandle
    split_ifs
    all_goals first
    | rfl
    | (exfalso; omega)
  exact ⟨by simp [get_adjusted_point_code, hd], by simp [to_rect_code, hd]⟩

/-- C4 witness: `c4_unmatched_handle` instantiated at handle code 9. -/
theorem c4_unmatched_handle_witness :
    get_adjusted_point_code ⟨0, 0, 1, 1⟩ ⟨0, 0⟩ 0 9 = Except.ok none ∧
    to_rect_code ⟨0, 0⟩ ⟨1, 1⟩ 9 = Except.ok none :=
  c4_unmatched_handle 9 (Or.inr (by norm_num)) ⟨0, 0, 1, 1⟩ ⟨0, 0⟩ 0 ⟨0, 0⟩ ⟨1, 1⟩
